import Mathlib

/-
Shallow embedding of src/provider_factory.js (createEip1193Provider).

JavaScript values are modelled by the inductive type `JSVal`; machine
numbers are modelled by `Int` (the program only handles integral ids and
codes, never fractional arithmetic).  Strict equality on composite values
(arrays, objects) is modelled as "distinct references": two composite
values built independently are never strictly equal, which is the only
situation the program can reach through the bridge (every host payload is
a freshly decoded value).

The asynchronous bridge is modelled by the type `Bridge`: either the
transport channel is absent, or it responds with an already-decoded value
(the `typeof raw === 'string' ? JSON.parse(raw) : raw` step of callHost is
abstracted into the decoded response).  A promise that fulfills is `.ok`,
a promise that rejects with a provider error is `.err`; a JavaScript
exception thrown inside a then-handler (only possible by calling
`toLowerCase` on a non-string) is modelled by `Option.none`.
-/

set_option autoImplicit false

namespace ProviderFactory

/-- JavaScript runtime values, as far as the program manipulates them. -/
inductive JSVal where
  | null
  | undefined
  | bool (b : Bool)
  | num (n : Int)
  | str (s : String)
  | arr (xs : List JSVal)
  | obj (fields : List (String × JSVal))

/-- JavaScript truthiness (`if (v)`, `v && w`, `v || w`). -/
def JSVal.truthy : JSVal → Bool
  | .null => false
  | .undefined => false
  | .bool b => b
  | .num n => n != 0
  | .str s => s != ""
  | .arr _ => true
  | .obj _ => true

/-- JavaScript `a || b`. -/
def jsOr (a b : JSVal) : JSVal :=
  if a.truthy then a else b

/-- JavaScript `a && b`. -/
def jsAnd (a b : JSVal) : JSVal :=
  if a.truthy then b else a

/-- JavaScript `a ?? b` (nullish coalescing). -/
def jsNullish (a b : JSVal) : JSVal :=
  match a with
  | .null => b
  | .undefined => b
  | _ => a

/-- Field lookup in an object literal; missing keys read as `undefined`. -/
def objGet : List (String × JSVal) → String → JSVal
  | [], _ => .undefined
  | (k, v) :: rest, key => if k = key then v else objGet rest key

/-- JavaScript property access `v.key` on a value that is not null or
undefined (every access in the program is guarded by a truthiness check,
so the throwing cases are unreachable).  Non-objects have none of the
properties the program reads. -/
def jsGet : JSVal → String → JSVal
  | .obj fs, key => objGet fs key
  | _, _ => .undefined

/-- JavaScript `v[0]` on a truthy value (the only way the program indexes).
Arrays yield their first element or `undefined`; strings their first
character; objects their "0" field; numbers and booleans have no index
properties. -/
def jsIndex0 : JSVal → JSVal
  | .arr xs => xs.getD 0 .undefined
  | .str s =>
      match s.data with
      | [] => .undefined
      | c :: _ => .str (String.mk [c])
  | .obj fs => objGet fs "0"
  | _ => .undefined

/-- Per-character ASCII lowering; the program lower-cases hexadecimal
addresses, for which `String.prototype.toLowerCase` coincides with ASCII
lowering. -/
def lowerStr (s : String) : String :=
  String.mk (s.data.map Char.toLower)

/-- JavaScript `v.toLowerCase()`: defined on strings, a `TypeError` (here
`none`) on anything else. -/
def jsToLowerCase : JSVal → Option String
  | .str s => some (lowerStr s)
  | _ => none

/-- JavaScript strict equality `===` on the values the program compares.
Composite values compare as distinct references (see header). -/
def jsStrictEq : JSVal → JSVal → Bool
  | .null, .null => true
  | .undefined, .undefined => true
  | .bool a, .bool b => a == b
  | .num a, .num b => a == b
  | .str a, .str b => a == b
  | _, _ => false

mutual

/-- JavaScript `String(v)`, as used by the `Error` constructor. -/
def jsStringOf : JSVal → String
  | .null => "null"
  | .undefined => "undefined"
  | .bool b => cond b "true" "false"
  | .num n => toString n
  | .str s => s
  | .arr xs => jsArrJoin xs
  | .obj _ => "[object Object]"

/-- `Array.prototype.toString`: elements joined by commas, with null and
undefined elements printed as the empty string. -/
def jsArrJoin : List JSVal → String
  | [] => ""
  | [x] =>
      match x with
      | .null => ""
      | .undefined => ""
      | v => jsStringOf v
  | x :: xs =>
      (match x with
       | .null => ""
       | .undefined => ""
       | v => jsStringOf v) ++ "," ++ jsArrJoin xs

end

/-- The provider's mutable state: the two module-level variables
`_selectedAddress` and `_chainId` (lines 45-46). -/
structure ProviderState where
  selectedAddress : JSVal
  chainId : JSVal

/-- One `emitter.emit(event, payload)` call issued by the provider. -/
inductive EmittedEvent where
  | accountsChanged (payload : JSVal)
  | chainChanged (payload : JSVal)
  | other (event : String) (payload : JSVal)

/-- The error objects the program constructs: `new Error(m)` (message is
`String(m)`) with a `code` property and an optional `data` property. -/
structure JSError where
  message : String
  code : JSVal
  data : Option JSVal

/-- A settled promise: fulfilled with a value or rejected with a provider
error. -/
inductive Outcome where
  | ok (v : JSVal)
  | err (e : JSError)

/-- The `{ id, method, params }` request serialized to the host (its
content does not influence the modelled response; the transport is the
abstract boundary). -/
structure OutMsg where
  id : JSVal
  method : JSVal
  params : JSVal

/-- The behaviour of the host bridge for one call:
`window.flutter_inappwebview.callHandler` is absent, or it answers with a
decoded response value. -/
inductive Bridge where
  | absent
  | respond (resp : JSVal)

/-- Lines 60-72 of callHost: decode the host response.  A falsy response
resolves with `null`; a truthy `error` field rejects with the normalized
error; otherwise the call resolves with the `result` field. -/
def decodeResp (resp : JSVal) : Outcome :=
  if !resp.truthy then .ok .null
  else
    let e := jsGet resp "error"
    if e.truthy then
      .err { message := jsStringOf (jsOr (jsGet e "message") (.str "Provider error")),
             code := jsNullish (jsGet e "code") (.num (-32603)),
             data := match jsGet e "data" with
                     | .undefined => none
                     | v => some v }
    else .ok (jsGet resp "result")

/-- Lines 51-73: `callHost(payload)`.  With no bridge the call settles as
a rejection (`Promise.reject`, never a synchronous throw) carrying code
-32603; with a bridge it settles according to the decoded response. -/
def callHost (bridge : Bridge) (_msg : OutMsg) : Outcome :=
  match bridge with
  | .absent => .err { message := "Bridge not available", code := .num (-32603), data := none }
  | .respond resp => decodeResp resp

/-- Line 100: `result[0] || null`, the candidate address of the client
path. -/
def candidateOfResult (xs : List JSVal) : JSVal :=
  jsOr (xs.getD 0 .undefined) .null

/-- Line 157: `(payload && payload[0]) || null`, the candidate address of
the host path. -/
def candidateOfHost (payload : JSVal) : JSVal :=
  jsOr (jsAnd payload (jsIndex0 payload)) .null

/-- Lines 98-104: the accounts branch of `request`'s then-handler.  When
the result is an array, `result[0] || null` becomes the next selected
address; the change test lower-cases both sides (null read as the empty
string, a `TypeError` — `none` — if either side is a truthy non-string);
the address is stored as received; `accountsChanged` is emitted only on a
change. -/
def requestAccountsUpdate (st : ProviderState) (result : JSVal) :
    Option (ProviderState × List EmittedEvent) :=
  match result with
  | .arr xs =>
      let next := candidateOfResult xs
      match jsToLowerCase (jsOr next (.str "")), jsToLowerCase (jsOr st.selectedAddress (.str "")) with
      | some a, some b =>
          let changed := a ≠ b
          some ({ st with selectedAddress := next },
                if changed then
                  [.accountsChanged (if next.truthy then .arr [next] else .arr [])]
                else [])
      | _, _ => none
  | _ => some (st, [])

/-- Lines 105-111: the chain branch of `request`'s then-handler.  Only a
string result touches the state; the comparison is strict equality. -/
def requestChainUpdate (st : ProviderState) (result : JSVal) :
    ProviderState × List EmittedEvent :=
  match result with
  | .str s =>
      let changed := !jsStrictEq (.str s) st.chainId
      ({ st with chainId := .str s },
       if changed then [.chainChanged (.str s)] else [])
  | _ => (st, [])

/-- Lines 96-113: dispatch of `request`'s then-handler on the method
name (strict string comparisons). -/
def onResult (st : ProviderState) (method : JSVal) (result : JSVal) :
    Option (ProviderState × List EmittedEvent) :=
  if jsStrictEq method (.str "eth_requestAccounts") || jsStrictEq method (.str "eth_accounts") then
    requestAccountsUpdate st result
  else if jsStrictEq method (.str "eth_chainId") then
    some (requestChainUpdate st result)
  else some (st, [])

/-- Lines 94-114: `provider.request({method, params})`.  `fresh` stands
for the `genId()` draw.  The returned triple is (state after the call,
events emitted, settlement); `none` is a `TypeError` escaping the
then-handler (state left as it was, since the assignment follows the
comparison that throws). -/
def requestStep (bridge : Bridge) (fresh : Int) (st : ProviderState)
    (method : JSVal) (params : JSVal) :
    Option (ProviderState × List EmittedEvent × Outcome) :=
  match callHost bridge { id := .num fresh, method := method, params := params } with
  | .err e => some (st, [], .err e)
  | .ok result =>
      match onResult st method result with
      | none => none
      | some (st', ems) => some (st', ems, .ok result)

/-- Lines 156-160: the `accountsChanged` branch of `_emitFromHost`.
`(payload && payload[0]) || null` becomes the candidate address; the rest
is the same change-detection block as the client path. -/
def hostAccountsUpdate (st : ProviderState) (payload : JSVal) :
    Option (ProviderState × List EmittedEvent) :=
  let next := candidateOfHost payload
  match jsToLowerCase (jsOr next (.str "")), jsToLowerCase (jsOr st.selectedAddress (.str "")) with
  | some a, some b =>
      let changed := a ≠ b
      some ({ st with selectedAddress := next },
            if changed then
              [.accountsChanged (if next.truthy then .arr [next] else .arr [])]
            else [])
  | _, _ => none

/-- Lines 161-164: the `chainChanged` branch of `_emitFromHost`.  The
payload is stored unconditionally, whatever its type; emission is decided
by strict inequality against the previous chainId. -/
def hostChainUpdate (st : ProviderState) (payload : JSVal) :
    ProviderState × List EmittedEvent :=
  let changed := !jsStrictEq payload st.chainId
  ({ st with chainId := payload },
   if changed then [.chainChanged payload] else [])

/-- Lines 155-168: `provider._emitFromHost(event, payload)`. -/
def emitFromHost (st : ProviderState) (event : String) (payload : JSVal) :
    Option (ProviderState × List EmittedEvent) :=
  if event = "accountsChanged" then
    hostAccountsUpdate st payload
  else if event = "chainChanged" then
    some (hostChainUpdate st payload)
  else
    some (st, [.other event payload])

/-- The legacy JSON-RPC envelope built by `send`/`sendAsync`
(lines 138-139, 146-147): `id` echoes the caller's raw `payload.id`;
exactly one of `result`/`error` is present.  In the error shape the `data`
key is always written (with the value `undefined` when the bridge error
carried none). -/
structure ErrShape where
  code : JSVal
  message : String
  data : JSVal

/-- Legacy envelope: id, the literal `jsonrpc` field, and one of
result/error. -/
structure Envelope where
  id : JSVal
  jsonrpc : String
  result : Option JSVal
  error : Option ErrShape

/-- Envelope construction from a settled bridge call (the `.then`/`.catch`
pair on lines 138-139 and 146-147). -/
def mkEnvelope (pid : JSVal) : Outcome → Envelope
  | .ok v => { id := pid, jsonrpc := "2.0", result := some v, error := none }
  | .err e =>
      { id := pid, jsonrpc := "2.0", result := none,
        error := some { code := jsNullish e.code (.num (-32603)),
                        message := e.message,
                        data := (e.data).getD .undefined } }

/-- One invocation of a Node-style callback: `cb(null, envelope)` or
`cb(error, null)`. -/
inductive CbCall where
  | success (env : Envelope)
  | failure (e : JSError)

/-- Whether a callback invocation passed a non-null first argument. -/
def CbCall.isFailure : CbCall → Bool
  | .success _ => false
  | .failure _ => true

/-- Lines 135-141: the payload form of `send`.  `cb = none`: no callback
supplied, the promise of the envelope is returned.  `cb = some t`: a
callback was supplied; `t` is what the callback itself throws on its first
invocation (`none` when it returns normally).  The promise `p` always
fulfills (its own `.catch` turns bridge errors into error envelopes), so
the chained `p.then(r => cb(null, r)).catch(e => cb(e, null))` first
invokes the callback with `(null, envelope)`; only an exception from the
callback reaches the trailing catch and triggers a second `(error, null)`
invocation.  In callback mode the function returns `undefined`
(no promise). -/
def sendPayloadForm (bridge : Bridge) (fresh : Int) (pid pmethod pparams : JSVal)
    (cb : Option (Option JSError)) : List CbCall × Option Envelope :=
  let env := mkEnvelope pid
    (callHost bridge { id := jsNullish pid (.num fresh), method := pmethod, params := pparams })
  match cb with
  | none => ([], some env)
  | some none => ([.success env], none)
  | some (some t) => ([.success env, .failure t], none)

/-- Argument shapes of `send(methodOrPayload, paramsOrCallback)`:
a method-name string, or a JSON-RPC payload (with the callback behaviour
as in `sendPayloadForm`). -/
inductive SendArg where
  | strForm (method : String) (params : JSVal)
  | payloadForm (pid pmethod pparams : JSVal) (cb : Option (Option JSError))

/-- What `send` hands back to its caller. -/
inductive SendRet where
  | fromReq (o : Outcome)
  | env (e : Envelope)
  | undefined

/-- Lines 131-142: `provider.send`.  The string form delegates to
`provider.request` (and hence can move the provider state); the payload
form calls the bridge directly.  The quadruple is (state after the call,
events emitted, callback invocations, return value). -/
def send (bridge : Bridge) (fresh : Int) (st : ProviderState) (a : SendArg) :
    Option (ProviderState × List EmittedEvent × List CbCall × SendRet) :=
  match a with
  | .strForm m p =>
      (requestStep bridge fresh st (.str m) p).map
        (fun r => (r.1, r.2.1, [], .fromReq r.2.2))
  | .payloadForm pid pm pp cb =>
      let r := sendPayloadForm bridge fresh pid pm pp cb
      some (st, [], r.1,
            match r.2 with
            | some e => .env e
            | none => .undefined)

/-- Lines 144-149: `provider.sendAsync(payload, cb)` — the payload form of
`send` with a mandatory callback and no return value.  `cbThrow` is what
the callback throws on its first invocation (`none`: it returns
normally).  The body never reads or writes `_selectedAddress`, `_chainId`
or the emitter, so the state passes through and no event is emitted. -/
def sendAsync (bridge : Bridge) (fresh : Int) (st : ProviderState)
    (pid pmethod pparams : JSVal) (cbThrow : Option JSError) :
    ProviderState × List EmittedEvent × List CbCall :=
  (st, [], (sendPayloadForm bridge fresh pid pmethod pparams (some cbThrow)).1)

/-- The `Emitter` registry `this._m` (line 28): event name to the Set of
handlers, in insertion order.  Handlers are identified by reference,
modelled as `Nat`. -/
def EmMap : Type := List (String × List Nat)

/-- `Set.prototype.add`: appends only if absent (insertion order kept). -/
def setAdd (hs : List Nat) (h : Nat) : List Nat :=
  if h ∈ hs then hs else hs ++ [h]

/-- Lines 29-32: `on(event, handler)` — `(this._m[event] ||= new Set()).add(handler)`. -/
def emOn : EmMap → String → Nat → EmMap
  | [], ev, h => [(ev, [h])]
  | (e, hs) :: rest, ev, h =>
      if e = ev then (e, setAdd hs h) :: rest
      else (e, hs) :: emOn rest ev h

/-- Lines 33-36: `removeListener(event, handler)` — `this._m[event]?.delete(handler)`. -/
def emRemove : EmMap → String → Nat → EmMap
  | [], _, _ => []
  | (e, hs) :: rest, ev, h =>
      if e = ev then (e, hs.filter (fun x => x ≠ h)) :: rest
      else (e, hs) :: emRemove rest ev h

/-- The handlers registered for an event (empty when the event is
unknown: `this._m[event]?.forEach` does nothing). -/
def emGet : EmMap → String → List Nat
  | [], _ => []
  | (e, hs) :: rest, ev => if e = ev then hs else emGet rest ev

/-- Lines 37-39: `emit` runs every handler under an individual
`try/catch`; a throwing handler (`hb h = .error v`) is logged to
`console.error` and the iteration continues.  Returns (handlers invoked,
in order; values logged).  The function is total: `emit` never rethrows
to its caller. -/
def emitRun (hs : List Nat) (hb : Nat → Except JSVal Unit) : List Nat × List JSVal :=
  match hs with
  | [] => ([], [])
  | h :: t =>
      let r := emitRun t hb
      match hb h with
      | .ok _ => (h :: r.1, r.2)
      | .error v => (h :: r.1, v :: r.2)

/-- A call on the registration surface of the emitter: an `on` or a
`removeListener`. -/
inductive EmOp where
  | reg (ev : String) (h : Nat)
  | unreg (ev : String) (h : Nat)

/-- Apply one registration call. -/
def applyEmOp (m : EmMap) : EmOp → EmMap
  | .reg ev h => emOn m ev h
  | .unreg ev h => emRemove m ev h

/-- The registry reached from the empty one (line 28: `this._m = {}`) by
a sequence of `on`/`removeListener` calls. -/
def applyEmOps (ops : List EmOp) : EmMap :=
  ops.foldl applyEmOp []

/-- The page-global state the registration step touches: the
`window.ethereum` slot (with the configurability of its property
descriptor) and the global events dispatched so far.  Providers are
identified by reference (`Nat`). -/
structure Window where
  ethereum : Option Nat
  ethConfigurable : Bool
  dispatched : List String

/-- Lines 197-204: the injection step.  `autoInject`/`forceReplace` are
the raw configuration values (`cfg.autoInject !== false`, truthiness of
`cfg.forceReplace`).  `Object.defineProperty` throws (`none`) when
redefining an existing non-configurable property; the new property's
configurability is `!!cfg.forceReplace`.  The `ethereum#initialized`
dispatch is fired only on installation. -/
def registerStep (w : Window) (autoInject forceReplace : JSVal) (p : Nat) :
    Option Window :=
  let shouldInject := !jsStrictEq autoInject (.bool false)
  let hasExisting := w.ethereum.isSome
  if shouldInject && (!hasExisting || forceReplace.truthy) then
    if hasExisting && !w.ethConfigurable then none
    else some { ethereum := some p,
                ethConfigurable := forceReplace.truthy,
                dispatched := w.dispatched ++ ["ethereum#initialized"] }
  else some w

/-! ## Theorems -/

/-- Spec-side reading of the address comparison key: the lower-cased
address, with null (and any other non-string) read as the empty
string. -/
def lowerOrEmpty : JSVal → String
  | .str s => lowerStr s
  | _ => ""

/-- A value that is null or a string (the shapes the specification calls
an address or its absence). -/
def isNullOrStr (v : JSVal) : Prop :=
  v = JSVal.null ∨ ∃ s, v = JSVal.str s

theorem jsToLowerCase_jsOr_empty (v : JSVal) (h : isNullOrStr v) :
    jsToLowerCase (jsOr v (JSVal.str "")) = some (lowerOrEmpty v) := by
  rcases h with h | ⟨s, h⟩ <;> subst h
  · rfl
  · by_cases hs : s = ""
    · subst hs; rfl
    · simp [jsOr, JSVal.truthy, jsToLowerCase, lowerOrEmpty, hs]

/-- The change-detection-and-emit block shared (textually) by the two
account paths, characterized on null-or-string states and candidates. -/
theorem hostAccountsUpdate_spec (st : ProviderState) (payload : JSVal)
    (hsel : isNullOrStr st.selectedAddress)
    (hnext : isNullOrStr (candidateOfHost payload)) :
    hostAccountsUpdate st payload
      = some ({ st with selectedAddress := candidateOfHost payload },
              if lowerOrEmpty (candidateOfHost payload) ≠ lowerOrEmpty st.selectedAddress then
                [.accountsChanged (if (candidateOfHost payload).truthy then
                    JSVal.arr [candidateOfHost payload] else JSVal.arr [])]
              else []) := by
  have h1 := jsToLowerCase_jsOr_empty _ hnext
  have h2 := jsToLowerCase_jsOr_empty _ hsel
  simp only [hostAccountsUpdate, h1, h2]

theorem requestAccountsUpdate_spec (st : ProviderState) (xs : List JSVal)
    (hsel : isNullOrStr st.selectedAddress)
    (hnext : isNullOrStr (candidateOfResult xs)) :
    requestAccountsUpdate st (JSVal.arr xs)
      = some ({ st with selectedAddress := candidateOfResult xs },
              if lowerOrEmpty (candidateOfResult xs) ≠ lowerOrEmpty st.selectedAddress then
                [.accountsChanged (if (candidateOfResult xs).truthy then
                    JSVal.arr [candidateOfResult xs] else JSVal.arr [])]
              else []) := by
  have h1 := jsToLowerCase_jsOr_empty _ hnext
  have h2 := jsToLowerCase_jsOr_empty _ hsel
  simp only [requestAccountsUpdate, h1, h2]

theorem decodeResp_result (v : JSVal) :
    decodeResp (JSVal.obj [("result", v)]) = Outcome.ok v := rfl

theorem onResult_accounts (st : ProviderState) (v : JSVal) (m : String)
    (hm : m = "eth_requestAccounts" ∨ m = "eth_accounts") :
    onResult st (JSVal.str m) v = requestAccountsUpdate st v := by
  rcases hm with hm | hm <;> subst hm <;> rfl

/-- C1.  Idempotent account-change detection: through either entry point,
with null-or-string previous address and candidate, the update succeeds,
stores the candidate verbatim (original case), leaves chainId alone, and
emits `accountsChanged` exactly when the lower-cased candidate differs
from the lower-cased previous address (null read as the empty string). -/
theorem accounts_change_detection (st : ProviderState)
    (hsel : isNullOrStr st.selectedAddress) :
    (∀ (m : String), (m = "eth_requestAccounts" ∨ m = "eth_accounts") →
      ∀ (xs : List JSVal), isNullOrStr (candidateOfResult xs) →
      ∀ (fresh : Int) (params : JSVal),
        requestStep (Bridge.respond (JSVal.obj [("result", JSVal.arr xs)])) fresh st
            (JSVal.str m) params
          = some ({ st with selectedAddress := candidateOfResult xs },
                  (if lowerOrEmpty (candidateOfResult xs) ≠ lowerOrEmpty st.selectedAddress then
                     [.accountsChanged (if (candidateOfResult xs).truthy then
                         JSVal.arr [candidateOfResult xs] else JSVal.arr [])]
                   else []),
                  Outcome.ok (JSVal.arr xs)))
    ∧ (∀ (payload : JSVal), isNullOrStr (candidateOfHost payload) →
        emitFromHost st "accountsChanged" payload
          = some ({ st with selectedAddress := candidateOfHost payload },
                  if lowerOrEmpty (candidateOfHost payload) ≠ lowerOrEmpty st.selectedAddress then
                    [.accountsChanged (if (candidateOfHost payload).truthy then
                        JSVal.arr [candidateOfHost payload] else JSVal.arr [])]
                  else [])) := by
  constructor
  · intro m hm xs hnext fresh params
    have hu := requestAccountsUpdate_spec st xs hsel hnext
    simp only [requestStep, callHost, decodeResp_result, onResult_accounts st _ m hm, hu]
  · intro payload hnext
    have hu := hostAccountsUpdate_spec st payload hsel hnext
    simp [emitFromHost, hu]

/-- C1 witness: from a null address, `eth_accounts` returning
`["0xAB"]` stores `"0xAB"` (original case) and emits once; pushing the
same address lower-cased afterwards stores `"0xab"` and does not emit. -/
theorem accounts_change_detection_witness :
    requestStep (Bridge.respond (JSVal.obj [("result", JSVal.arr [JSVal.str "0xAB"])])) 5
        { selectedAddress := JSVal.null, chainId := JSVal.null } (JSVal.str "eth_accounts") JSVal.undefined
      = some ({ selectedAddress := JSVal.str "0xAB", chainId := JSVal.null },
              [.accountsChanged (JSVal.arr [JSVal.str "0xAB"])],
              Outcome.ok (JSVal.arr [JSVal.str "0xAB"]))
    ∧ emitFromHost { selectedAddress := JSVal.str "0xAB", chainId := JSVal.null }
        "accountsChanged" (JSVal.arr [JSVal.str "0xab"])
      = some ({ selectedAddress := JSVal.str "0xab", chainId := JSVal.null }, []) := by
  constructor
  · have h := (accounts_change_detection
      { selectedAddress := JSVal.null, chainId := JSVal.null } (Or.inl rfl)).1
      "eth_accounts" (Or.inr rfl) [JSVal.str "0xAB"]
      (Or.inr ⟨"0xAB", rfl⟩) 5 JSVal.undefined
    simpa using h
  · have h := (accounts_change_detection
      { selectedAddress := JSVal.str "0xAB", chainId := JSVal.null }
      (Or.inr ⟨"0xAB", rfl⟩)).2 (JSVal.arr [JSVal.str "0xab"]) (Or.inr ⟨"0xab", rfl⟩)
    simpa using h

/-- C2.  Convergence of the two update paths: a successful
`request('eth_accounts')` whose result is an array and
`_emitFromHost('accountsChanged', same array)` produce the same final
state and the same emissions (including their absence), from any starting
state. -/
theorem accounts_paths_converge (st : ProviderState) (xs : List JSVal)
    (fresh : Int) (params : JSVal) :
    (requestStep (Bridge.respond (JSVal.obj [("result", JSVal.arr xs)])) fresh st
        (JSVal.str "eth_accounts") params).map (fun r => (r.1, r.2.1))
      = emitFromHost st "accountsChanged" (JSVal.arr xs) := by
  have hpaths : requestAccountsUpdate st (JSVal.arr xs) = hostAccountsUpdate st (JSVal.arr xs) := rfl
  simp only [requestStep, callHost, decodeResp_result,
    onResult_accounts st _ "eth_accounts" (Or.inr rfl), hpaths, emitFromHost,
    reduceIte]
  cases hostAccountsUpdate st (JSVal.arr xs) with
  | none => rfl
  | some r => rfl

/-- C3.  Bridge unavailable: with no transport channel, every `request`
settles as a rejection with code -32603 and the bridge-unavailable
message, the state is untouched, nothing is emitted, and the call never
resolves (the settlement is an error outcome, produced by returning a
rejected promise, not by a synchronous throw). -/
theorem bridge_absent_rejects (st : ProviderState) (fresh : Int)
    (method params : JSVal) :
    requestStep Bridge.absent fresh st method params
      = some (st, [],
              Outcome.err { message := "Bridge not available", code := JSVal.num (-32603), data := none }) := rfl

/-- C4 counterexample: the decoded response `{error: 0}` carries an
`error` field, yet `request` resolves (with `undefined`, the value of the
absent `result` key) instead of rejecting — the guard on line 64 tests the
truthiness of `resp.error`, not its presence. -/
theorem host_error_field_not_sufficient :
    requestStep (Bridge.respond (JSVal.obj [("error", JSVal.num 0)])) 1
        { selectedAddress := JSVal.null, chainId := JSVal.null }
        (JSVal.str "eth_blockNumber") JSVal.undefined
      = some ({ selectedAddress := JSVal.null, chainId := JSVal.null }, [],
              Outcome.ok JSVal.undefined) := rfl

/-- C4 (amended).  For every decoded host response whose `error` field is
truthy, `request` rejects (never resolves) and leaves the state alone;
the error's code is the host's `error.code`, or -32603 when that code is
nullish; its message is `String(error.message)` when `error.message` is
truthy and `'Provider error'` otherwise; and it carries the host's
`error.data` exactly when that field is not `undefined`. -/
theorem host_error_passthrough (st : ProviderState) (fresh : Int)
    (method params resp : JSVal)
    (herr : (jsGet resp "error").truthy = true) :
    requestStep (Bridge.respond resp) fresh st method params
      = some (st, [],
          Outcome.err
            { message := jsStringOf (jsOr (jsGet (jsGet resp "error") "message")
                (JSVal.str "Provider error")),
              code := jsNullish (jsGet (jsGet resp "error") "code") (JSVal.num (-32603)),
              data := match jsGet (jsGet resp "error") "data" with
                      | .undefined => none
                      | v => some v }) := by
  have htruthy : resp.truthy = true := by
    cases resp <;> simp_all [jsGet, JSVal.truthy]
  simp [requestStep, callHost, decodeResp, htruthy, herr]

/-- C4 witness: `{error:{code:4001,message:'User rejected'}}` makes
`request` reject with code 4001 and that message, carrying no data. -/
theorem host_error_passthrough_witness :
    (jsGet (JSVal.obj [("error", JSVal.obj [("code", JSVal.num 4001),
        ("message", JSVal.str "User rejected")])]) "error").truthy = true
    ∧ requestStep (Bridge.respond (JSVal.obj [("error", JSVal.obj [("code", JSVal.num 4001),
          ("message", JSVal.str "User rejected")])])) 1
        { selectedAddress := JSVal.null, chainId := JSVal.null }
        (JSVal.str "eth_sendTransaction") JSVal.undefined
      = some ({ selectedAddress := JSVal.null, chainId := JSVal.null }, [],
              Outcome.err { message := "User rejected", code := JSVal.num 4001, data := none }) :=
  ⟨rfl,
   (host_error_passthrough
      { selectedAddress := JSVal.null, chainId := JSVal.null } 1
      (JSVal.str "eth_sendTransaction") JSVal.undefined
      (JSVal.obj [("error", JSVal.obj [("code", JSVal.num 4001),
        ("message", JSVal.str "User rejected")])]) rfl).trans rfl⟩

/-- C5.  Legacy envelope round-trip: `send({id:7, method:'eth_chainId'})`
with host result `'0x1'` yields the envelope
`{id:7, jsonrpc:'2.0', result:'0x1'}`; and whenever the bridge call
settles as an error `e`, the envelope is
`{id:7, jsonrpc:'2.0', error:{code, message, data}}`, echoing the
caller's id. -/
theorem legacy_envelope_roundtrip (st : ProviderState) (fresh : Int) :
    send (Bridge.respond (JSVal.obj [("result", JSVal.str "0x1")])) fresh st
        (SendArg.payloadForm (JSVal.num 7) (JSVal.str "eth_chainId") JSVal.undefined none)
      = some (st, [], [],
          SendRet.env { id := JSVal.num 7, jsonrpc := "2.0",
                        result := some (JSVal.str "0x1"), error := none })
    ∧ (∀ (resp : JSVal) (e : JSError), decodeResp resp = Outcome.err e →
        send (Bridge.respond resp) fresh st
            (SendArg.payloadForm (JSVal.num 7) (JSVal.str "eth_chainId") JSVal.undefined none)
          = some (st, [], [],
              SendRet.env { id := JSVal.num 7, jsonrpc := "2.0", result := none,
                            error := some { code := jsNullish e.code (JSVal.num (-32603)),
                                            message := e.message,
                                            data := (e.data).getD JSVal.undefined } })) := by
  constructor
  · rfl
  · intro resp e he
    simp [send, sendPayloadForm, callHost, he, mkEnvelope]

/-- C5 witness: a host error with code 4001, message and data produces
the error envelope echoing id 7. -/
theorem legacy_envelope_roundtrip_witness :
    decodeResp (JSVal.obj [("error", JSVal.obj [("code", JSVal.num 4001),
        ("message", JSVal.str "User rejected"), ("data", JSVal.str "extra")])])
      = Outcome.err { message := "User rejected", code := JSVal.num 4001,
                      data := some (JSVal.str "extra") }
    ∧ send (Bridge.respond (JSVal.obj [("error", JSVal.obj [("code", JSVal.num 4001),
          ("message", JSVal.str "User rejected"), ("data", JSVal.str "extra")])])) 3
        { selectedAddress := JSVal.null, chainId := JSVal.null }
        (SendArg.payloadForm (JSVal.num 7) (JSVal.str "eth_chainId") JSVal.undefined none)
      = some ({ selectedAddress := JSVal.null, chainId := JSVal.null }, [], [],
          SendRet.env { id := JSVal.num 7, jsonrpc := "2.0", result := none,
                        error := some { code := JSVal.num 4001,
                                        message := "User rejected",
                                        data := JSVal.str "extra" } }) :=
  ⟨rfl,
   ((legacy_envelope_roundtrip
      { selectedAddress := JSVal.null, chainId := JSVal.null } 3).2
      (JSVal.obj [("error", JSVal.obj [("code", JSVal.num 4001),
        ("message", JSVal.str "User rejected"), ("data", JSVal.str "extra")])])
      { message := "User rejected", code := JSVal.num 4001, data := some (JSVal.str "extra") }
      rfl).trans rfl⟩

/-- C6 counterexample: with the bridge absent (the underlying call
fails), a callback supplied to `send`'s payload form is invoked with
`(null, envelope)` — the failure travels inside the envelope's `error`
field — and never as `(error, null)`: the promise wrapped by line 137-139
always fulfills, because its own `.catch` already turned the bridge error
into an error envelope. -/
theorem send_callback_counterexample :
    send Bridge.absent 1 { selectedAddress := JSVal.null, chainId := JSVal.null }
        (SendArg.payloadForm (JSVal.num 1) (JSVal.str "eth_chainId") JSVal.null (some none))
      = some ({ selectedAddress := JSVal.null, chainId := JSVal.null }, [],
              [CbCall.success
                { id := JSVal.num 1, jsonrpc := "2.0", result := none,
                  error := some { code := JSVal.num (-32603),
                                  message := "Bridge not available",
                                  data := JSVal.undefined } }],
              SendRet.undefined)
    ∧ (send Bridge.absent 1 { selectedAddress := JSVal.null, chainId := JSVal.null }
        (SendArg.payloadForm (JSVal.num 1) (JSVal.str "eth_chainId") JSVal.null (some none))).map
          (fun r => r.2.2.1.any CbCall.isFailure)
      = some false := ⟨rfl, rfl⟩

/-- C6 (amended).  Callback convention of the legacy adapter: when a
function is supplied as `send`'s second argument (payload form) or as
`sendAsync`'s callback and the callback returns normally, it is invoked
exactly once, as `(null, envelope)` — for bridge successes and failures
alike, a failure being conveyed by the envelope's `error` field — and in
callback mode `send` returns `undefined`, not a promise.  (`(error,
null)` occurs only as a second invocation when the callback itself threw
on the first.) -/
theorem send_callback_convention (bridge : Bridge) (fresh : Int)
    (st : ProviderState) (pid pm pp : JSVal) :
    send bridge fresh st (SendArg.payloadForm pid pm pp (some none))
      = some (st, [],
          [CbCall.success (mkEnvelope pid (callHost bridge
              { id := jsNullish pid (JSVal.num fresh), method := pm, params := pp }))],
          SendRet.undefined)
    ∧ sendAsync bridge fresh st pid pm pp none
      = (st, [],
         [CbCall.success (mkEnvelope pid (callHost bridge
             { id := jsNullish pid (JSVal.num fresh), method := pm, params := pp }))]) :=
  ⟨rfl, rfl⟩

/-- C7.  Frame effect of the payload form: for every payload (any id,
method and params), every callback situation and every host outcome,
`send`'s payload form and `sendAsync` leave `selectedAddress` and
`chainId` unchanged and emit no event — the call goes through `callHost`
directly, bypassing the state-inference path of `request`. -/
theorem send_payload_frame (bridge : Bridge) (fresh : Int) (st : ProviderState)
    (pid pm pp : JSVal) (cb : Option (Option JSError)) (cbt : Option JSError) :
    (send bridge fresh st (SendArg.payloadForm pid pm pp cb)).map (fun r => (r.1, r.2.1))
      = some (st, [])
    ∧ (sendAsync bridge fresh st pid pm pp cbt).1 = st
    ∧ (sendAsync bridge fresh st pid pm pp cbt).2.1 = [] :=
  ⟨rfl, rfl, rfl⟩

theorem emGet_emOn_self (m : EmMap) (ev : String) (h : Nat) :
    emGet (emOn m ev h) ev = setAdd (emGet m ev) h := by
  induction m with
  | nil => simp [emOn, emGet, setAdd]
  | cons p rest ih =>
      obtain ⟨e, hs⟩ := p
      by_cases he : e = ev <;> simp [emOn, emGet, he, ih]

theorem emGet_emOn_ne (m : EmMap) (ev : String) (h : Nat) (ev' : String)
    (hne : ev' ≠ ev) : emGet (emOn m ev h) ev' = emGet m ev' := by
  induction m with
  | nil => simp [emOn, emGet, Ne.symm hne]
  | cons p rest ih =>
      obtain ⟨e, hs⟩ := p
      by_cases he : e = ev
      · subst he
        simp [emOn, emGet, Ne.symm hne]
      · by_cases he' : e = ev' <;> simp [emOn, emGet, he, he', ih, hne]

theorem emGet_emRemove_self (m : EmMap) (ev : String) (h : Nat) :
    emGet (emRemove m ev h) ev = (emGet m ev).filter (fun x => x ≠ h) := by
  induction m with
  | nil => simp [emRemove, emGet]
  | cons p rest ih =>
      obtain ⟨e, hs⟩ := p
      by_cases he : e = ev <;> simp [emRemove, emGet, he, ih]

theorem emGet_emRemove_ne (m : EmMap) (ev : String) (h : Nat) (ev' : String)
    (hne : ev' ≠ ev) : emGet (emRemove m ev h) ev' = emGet m ev' := by
  induction m with
  | nil => simp [emRemove, emGet]
  | cons p rest ih =>
      obtain ⟨e, hs⟩ := p
      by_cases he : e = ev
      · subst he
        simp [emRemove, emGet, Ne.symm hne]
      · by_cases he' : e = ev' <;> simp [emRemove, emGet, he, he', ih, hne]

theorem setAdd_nodup (hs : List Nat) (h : Nat) (hn : hs.Nodup) :
    (setAdd hs h).Nodup := by
  unfold setAdd
  split
  · exact hn
  · next hmem => simp [List.nodup_append, hn, hmem]

/-- Every registry reachable from the empty one has duplicate-free
handler sets (JS `Set` semantics). -/
theorem applyEmOps_nodup (ops : List EmOp) (ev : String) :
    (emGet (applyEmOps ops) ev).Nodup := by
  suffices hgen : ∀ (m : EmMap), (∀ e, (emGet m e).Nodup) →
      ∀ e, (emGet (List.foldl applyEmOp m ops) e).Nodup by
    exact hgen [] (fun _ => List.nodup_nil) ev
  induction ops with
  | nil => intro m hm e; exact hm e
  | cons op rest ih =>
      intro m hm e
      refine ih (applyEmOp m op) ?_ e
      intro e'
      cases op with
      | reg oev oh =>
          by_cases he : e' = oev
          · subst he
            rw [applyEmOp, emGet_emOn_self]
            exact setAdd_nodup _ _ (hm e')
          · rw [applyEmOp, emGet_emOn_ne _ _ _ _ he]
            exact hm e'
      | unreg oev oh =>
          by_cases he : e' = oev
          · subst he
            rw [applyEmOp, emGet_emRemove_self]
            exact List.Nodup.filter _ (hm e')
          · rw [applyEmOp, emGet_emRemove_ne _ _ _ _ he]
            exact hm e'

theorem emitRun_fst (hs : List Nat) (hb : Nat → Except JSVal Unit) :
    (emitRun hs hb).1 = hs := by
  induction hs with
  | nil => rfl
  | cons h t ih =>
      rw [emitRun]
      cases hb h <;> simp [ih]

theorem setAdd_idem (hs : List Nat) (h : Nat) :
    setAdd (setAdd hs h) h = setAdd hs h := by
  unfold setAdd
  split
  · simp
  · next hmem => simp

theorem emOn_idem (m : EmMap) (ev : String) (h : Nat) :
    emOn (emOn m ev h) ev h = emOn m ev h := by
  induction m with
  | nil => simp [emOn, setAdd]
  | cons p rest ih =>
      obtain ⟨e, hs⟩ := p
      by_cases he : e = ev <;> simp [emOn, he, ih, setAdd_idem]

/-- C8.  Event bus isolation and at-most-once delivery: in any emitter
registry reachable by `on`/`removeListener` calls, `emit` invokes exactly
the registered handlers, in order, whatever each handler does (a throwing
handler is caught, its failure logged and not rethrown, and the remaining
handlers still run — `emitRun` is total and its invocation list never
stops early); the registered handlers of an event are duplicate-free, so
no handler is invoked more than once per `emit`; and registering the same
handler reference twice is the same as registering it once. -/
theorem emitter_isolation (ops : List EmOp) (ev : String) (h : Nat)
    (hb : Nat → Except JSVal Unit) :
    (emitRun (emGet (applyEmOps ops) ev) hb).1 = emGet (applyEmOps ops) ev
    ∧ (emGet (applyEmOps ops) ev).Nodup
    ∧ emOn (emOn (applyEmOps ops) ev h) ev h = emOn (applyEmOps ops) ev h :=
  ⟨emitRun_fst _ hb, applyEmOps_nodup ops ev, emOn_idem _ ev h⟩

/-- C9.  No double install: with a provider already installed and a falsy
`forceReplace`, the registration step leaves the window exactly as it was
(the original provider stays installed and no second
`ethereum#initialized` signal fires); and in general an installation
(any change to the window) happens only when no provider was installed or
the force-replace option is truthy. -/
theorem no_double_install (w : Window) (autoInject forceReplace : JSVal)
    (p q : Nat) (hexist : w.ethereum = some q)
    (hforce : forceReplace.truthy = false) :
    registerStep w autoInject forceReplace p = some w
    ∧ ∀ (w2 : Window) (a f : JSVal) (p2 : Nat) (w2' : Window),
        registerStep w2 a f p2 = some w2' → w2' ≠ w2 →
        (w2.ethereum = none ∨ f.truthy = true) := by
  constructor
  · simp [registerStep, hexist, hforce]
  · intro w2 a f p2 w2' hreg hne
    by_cases hcond : (!jsStrictEq a (JSVal.bool false)
        && (!w2.ethereum.isSome || f.truthy)) = true
    · rcases Bool.and_eq_true _ _ |>.mp hcond with ⟨_, hor⟩
      rcases Bool.or_eq_true _ _ |>.mp hor with hn | hf
      · left
        cases hw : w2.ethereum with
        | none => rfl
        | some v => rw [hw] at hn; simp at hn
      · right; exact hf
    · rw [registerStep] at hreg
      simp only [Bool.not_eq_true] at hcond
      rw [hcond] at hreg
      simp at hreg
      exact absurd hreg.symm hne

/-- C9 witness: a second registration over an installed provider with
`forceReplace = false` changes nothing. -/
theorem no_double_install_witness :
    registerStep { ethereum := some 1, ethConfigurable := false,
                   dispatched := ["ethereum#initialized"] }
        JSVal.undefined (JSVal.bool false) 2
      = some { ethereum := some 1, ethConfigurable := false,
               dispatched := ["ethereum#initialized"] } :=
  (no_double_install
    { ethereum := some 1, ethConfigurable := false,
      dispatched := ["ethereum#initialized"] }
    JSVal.undefined (JSVal.bool false) 2 1 rfl rfl).1

/-- C10.  Divergence of the two chain-change paths: the host path stores
any payload — null, number, object, anything — into `chainId`
unconditionally and emits `chainChanged` exactly when the payload differs
from the previous `chainId` under strict equality, whereas the client
path (`eth_chainId` result handling) changes nothing at all when the
result is not a string. -/
theorem chain_validation_divergence (st : ProviderState) (payload : JSVal) :
    emitFromHost st "chainChanged" payload
      = some ({ st with chainId := payload },
              if jsStrictEq payload st.chainId then []
              else [EmittedEvent.chainChanged payload])
    ∧ (∀ result : JSVal, (∀ s, result ≠ JSVal.str s) →
        requestChainUpdate st result = (st, [])) := by
  constructor
  · cases hsq : jsStrictEq payload st.chainId <;>
      simp [emitFromHost, hostChainUpdate, hsq]
  · intro result hres
    cases result with
    | str s => exact absurd rfl (hres s)
    | null => rfl
    | undefined => rfl
    | bool b => rfl
    | num n => rfl
    | arr xs => rfl
    | obj fs => rfl

/-- C10 witness: pushing the number 5 from the host over chainId '0x1'
stores the raw number and emits; a client `eth_chainId` call whose result
is an object leaves the state untouched. -/
theorem chain_validation_divergence_witness :
    emitFromHost { selectedAddress := JSVal.null, chainId := JSVal.str "0x1" }
        "chainChanged" (JSVal.num 5)
      = some ({ selectedAddress := JSVal.null, chainId := JSVal.num 5 },
              [EmittedEvent.chainChanged (JSVal.num 5)])
    ∧ requestChainUpdate { selectedAddress := JSVal.null, chainId := JSVal.str "0x1" }
        (JSVal.obj [])
      = ({ selectedAddress := JSVal.null, chainId := JSVal.str "0x1" }, []) :=
  ⟨((chain_validation_divergence
      { selectedAddress := JSVal.null, chainId := JSVal.str "0x1" }
      (JSVal.num 5)).1).trans rfl,
   (chain_validation_divergence
      { selectedAddress := JSVal.null, chainId := JSVal.str "0x1" }
      (JSVal.num 5)).2 (JSVal.obj []) (fun _ h => JSVal.noConfusion h)⟩

end ProviderFactory
